import Mathlib

/-!
Verification development for the dsv-tutor-tools authenticated scraping
pipeline (session cache, session acquirer, schedule extractor).  The
JavaScript source is shallowly embedded: network and key-value effects
become explicit environments and operation traces, HTML documents become a
data type describing the parsed DOM, and JavaScript strings, objects and
regular expressions are modelled over Lean strings and association lists.
-/

namespace DsvTutor

/-! ## JavaScript string helpers

Character-level implementations (structural recursion, so that closed
instances evaluate inside the kernel) of the JS string operations the
source uses. -/

/-- When `sep` is an initial segment of `l`, the remainder after it. -/
def eatSep : List Char → List Char → Option (List Char)
  | [], l => some l
  | _ :: _, [] => none
  | a :: as, b :: bs => if a == b then eatSep as bs else none

/-- JS `s.startsWith(pre)`. -/
def jsStartsWith (s pre : String) : Bool :=
  (eatSep pre.data s.data).isSome

def splitOnFuel (sep : List Char) : Nat → List Char → List Char → List (List Char)
  | 0, acc, _ => [acc.reverse]
  | _ + 1, acc, [] => [acc.reverse]
  | fuel + 1, acc, c :: cs =>
    match eatSep sep (c :: cs) with
    | some rest => acc.reverse :: splitOnFuel sep fuel [] rest
    | none => splitOnFuel sep fuel (c :: acc) cs

/-- JS `s.split(sep)` for a non-empty literal separator. -/
def jsSplitOn (s sep : String) : List String :=
  if sep.data.isEmpty then [s]
  else (splitOnFuel sep.data (s.data.length + 1) [] s.data).map String.mk

/-- JS `s.trim()` (ASCII whitespace suffices for the modelled pages). -/
def jsTrim (s : String) : String :=
  String.mk (((s.data.dropWhile (fun c => c.isWhitespace)).reverse.dropWhile
    (fun c => c.isWhitespace)).reverse)

/-- JS `s.toLowerCase()` on ASCII letters. -/
def jsToLower (s : String) : String :=
  String.mk (s.data.map (fun c =>
    if 'A' ≤ c && c ≤ 'Z' then Char.ofNat (c.toNat + 32) else c))

def digitsToNat (cs : List Char) : Nat :=
  cs.foldl (fun a c => a * 10 + (c.toNat - 48)) 0

/-- A decimal-digit parse agreeing with `Number`/`parseInt` on the
digit-only strings the guards admit. -/
def jsToNat? (s : String) : Option Nat :=
  if !s.data.isEmpty && s.data.all (fun c => c.isDigit) then
    some (digitsToNat s.data)
  else none

/-- JS `s.includes(sub)` for a non-empty `sub`: `split` yields at least two
pieces exactly when `sub` occurs in `s`. -/
def includesSub (s sub : String) : Bool :=
  (jsSplitOn s sub).length ≥ 2

/-! ## JavaScript object semantics (ordered string maps)

Used both for the cookie jar and for form-data objects: assignment to an
existing key overwrites in place, a new key is appended, `delete` removes. -/

def objSet (o : List (String × String)) (k v : String) : List (String × String) :=
  if o.any (fun p => p.1 == k) then
    o.map (fun p => if p.1 == k then (k, v) else p)
  else o ++ [(k, v)]

def objSetAll (o : List (String × String)) (kvs : List (String × String)) :
    List (String × String) :=
  kvs.foldl (fun a p => objSet a p.1 p.2) o

def objDelete (o : List (String × String)) (k : String) : List (String × String) :=
  o.filter (fun p => p.1 != k)

def objGet (o : List (String × String)) (k : String) : Option String :=
  (o.find? (fun p => p.1 == k)).map (fun p => p.2)

/-- The names (keys) of a JS object / cookie jar, in insertion order. -/
def jarNames (o : List (String × String)) : List String :=
  o.map Prod.fst

/-- `Object.assign(jar, delta)`: merge `delta` into `jar` left to right. -/
def mergeObj (o delta : List (String × String)) : List (String × String) :=
  delta.foldl (fun a p => objSet a p.1 p.2) o

/-! ## Cookie extraction (source: `extractCookies`, part_001 lines 89-105)

One raw `Set-Cookie` header value: `value.split(';')[0]` is the name=value
part; it is split on `=`; the cookie is kept when the raw name is truthy and
at least one `=` was present. -/

def parseSetCookie (v : String) : Option (String × String) :=
  let nameValue := ((jsSplitOn v ";").headD "")
  match jsSplitOn nameValue "=" with
  | [] => none
  | name :: valueParts =>
      if name != "" && valueParts.length > 0 then
        some (jsTrim name, jsTrim (String.intercalate "=" valueParts))
      else none

def extractCookiesRaw (setCookies : List String) : List (String × String) :=
  setCookies.filterMap parseSetCookie

/-! ## JS `Date` model (source: `new Date(year, month-1, day, h, m)`)

A civil date-time is encoded as milliseconds on a proleptic Gregorian line
(days-from-civil algorithm).  Month and day overflow normalize exactly as in
JS (`mIdx` is floor-divided into years, day overflow is linear), and a year
in 0..99 maps to 1900+year as JS does.  The local-UTC offset is a constant
shift and is omitted: only equality and injectivity of instants matter. -/

def daysFromCivil (y m d : Int) : Int :=
  let y2 := if m ≤ 2 then y - 1 else y
  let era : Int := (if 0 ≤ y2 then y2 else y2 - 399).ediv 400
  let yoe := y2 - era * 400
  let mp := (m + 9).emod 12
  let doy := (153 * mp + 2).ediv 5 + d - 1
  let doe := yoe * 365 + yoe.ediv 4 - yoe.ediv 100 + doy
  era * 146097 + doe - 719468

def jsDateMs (y mIdx d hh mm : Int) : Int :=
  let y1 := if 0 ≤ y && y ≤ 99 then y + 1900 else y
  let ym := y1 + mIdx.ediv 12
  let m := mIdx.emod 12 + 1
  let days := daysFromCivil ym m 1 + (d - 1)
  (((days * 24) + hh) * 60 + mm) * 60000

/-! ## The time-range regex `/(\d{1,2}):(\d{2})\s*-\s*(\d{1,2}):(\d{2})/`

Implemented as a direct matcher.  `\d{1,2}` followed by the literal `:` needs
no backtracking beyond the two-or-one digit choice, and `\s*` before a
non-whitespace literal is plain greedy consumption, so the matcher below is
exactly the regex. -/

structure TimeGroups where
  h1 : String
  m1 : String
  h2 : String
  m2 : String
deriving DecidableEq

/-- Match `\d{1,2}` immediately followed by `:`; returns the digits and the
rest after the colon. -/
def matchHourColon (cs : List Char) : Option (List Char × List Char) :=
  match cs with
  | a :: b :: c :: rest =>
      if a.isDigit then
        if b.isDigit then (if c == ':' then some ([a, b], rest) else none)
        else if b == ':' then some ([a], c :: rest) else none
      else none
  | [a, b] => if a.isDigit && b == ':' then some ([a], []) else none
  | _ => none

def matchTwoDigits (cs : List Char) : Option (List Char × List Char) :=
  match cs with
  | a :: b :: rest => if a.isDigit && b.isDigit then some ([a, b], rest) else none
  | _ => none

def dropWs (cs : List Char) : List Char :=
  cs.dropWhile (fun c => c.isWhitespace)

def matchTimeAt (cs : List Char) : Option (TimeGroups × List Char) :=
  match matchHourColon cs with
  | none => none
  | some (h1, r1) =>
    match matchTwoDigits r1 with
    | none => none
    | some (m1, r2) =>
      match dropWs r2 with
      | '-' :: r4 =>
        match matchHourColon (dropWs r4) with
        | none => none
        | some (h2, r6) =>
          match matchTwoDigits r6 with
          | none => none
          | some (m2, r7) =>
              some (⟨String.mk h1, String.mk m1, String.mk h2, String.mk m2⟩, r7)
      | _ => none

/-- `matchAll` over the time regex: scan left to right, resume after each
match.  Fuel is the initial character count; every step consumes at least one
character, so the fuel never runs out before the input does. -/
def scanTimesFuel : Nat → List Char → List TimeGroups
  | 0, _ => []
  | _ + 1, [] => []
  | fuel + 1, c :: cs =>
    match matchTimeAt (c :: cs) with
    | some (g, rest) => g :: scanTimesFuel fuel rest
    | none => scanTimesFuel fuel cs

def scanTimes (s : String) : List TimeGroups :=
  scanTimesFuel s.data.length s.data

/-- `timeStr.match(regex)` without the `g` flag: the first match. -/
def firstTimeMatch (s : String) : Option TimeGroups :=
  (scanTimes s).head?

/-! ## The course-code regex `/\[\s*([^\]]+?)\s*\]/g`

A match spans from a `[` to the first following `]` with non-empty content in
between.  The capture is the content with the greedy leading-whitespace prefix
and the lazy trailing-whitespace suffix stripped; if the content is entirely
whitespace, backtracking leaves exactly its last character captured. -/

def bracketCapture (content : List Char) : String :=
  let r := content.dropWhile (fun c => c.isWhitespace)
  if r.isEmpty then String.mk (content.drop (content.length - 1))
  else String.mk ((r.reverse.dropWhile (fun c => c.isWhitespace)).reverse)

/-- Split at the first `]`: returns (before, after) when a `]` exists. -/
def splitAtRB (cs : List Char) : Option (List Char × List Char) :=
  match cs with
  | [] => none
  | c :: rest =>
      if c == ']' then some ([], rest)
      else match splitAtRB rest with
        | some (pre, post) => some (c :: pre, post)
        | none => none

def scanBracketsFuel : Nat → List Char → List String
  | 0, _ => []
  | _ + 1, [] => []
  | fuel + 1, c :: cs =>
    if c == '[' then
      match splitAtRB cs with
      | some (content, rest) =>
          if content.isEmpty then scanBracketsFuel fuel cs
          else bracketCapture content :: scanBracketsFuel fuel rest
      | none => scanBracketsFuel fuel cs
    else scanBracketsFuel fuel cs

def scanBrackets (s : String) : List String :=
  scanBracketsFuel s.data.length s.data

/-! ## Date validation and parsing (source lines 477, 492) -/

/-- The anchored regex `/^\d{4}-\d{2}-\d{2}$/`. -/
def validDate (s : String) : Bool :=
  match s.data with
  | [a, b, c, d, e, f, g, h, i, j] =>
      a.isDigit && b.isDigit && c.isDigit && d.isDigit && e == '-' &&
      f.isDigit && g.isDigit && h == '-' && i.isDigit && j.isDigit
  | _ => false

/-- `dateStr.split('-').map(Number)` destructured into `[year, month, day]`. -/
def parseDateParts (s : String) : Int × Int × Int :=
  match (jsSplitOn s "-").map (fun p => (((jsToNat? p).getD 0 : Nat) : Int)) with
  | [y, m, d] => (y, m, d)
  | _ => (0, 0, 0)

/-- `parseInt` on the digit-only strings the time regex captures. -/
def jsParseDigits (s : String) : Int :=
  (((jsToNat? s).getD 0 : Nat) : Int)

/-! ## Parsed DOM model

The cheerio queries the source performs read: anchors (text, href), forms
(action, inputs with name/value), the page title, and tables of rows of `td`
cells.  A cell records its text, whether it carries a `colspan` attribute,
and the `href` values of the anchors inside it. -/

structure Anchor where
  text : String
  href : Option String
deriving DecidableEq

structure FormInput where
  name : Option String
  value : Option String
deriving DecidableEq

structure Form where
  action : Option String
  inputs : List FormInput
deriving DecidableEq

structure Cell where
  text : String
  colspan : Bool
  links : List String
deriving DecidableEq

structure Row where
  cells : List Cell
deriving DecidableEq

structure Table where
  rows : List Row
deriving DecidableEq

structure Page where
  raw : String
  title : String
  anchors : List Anchor
  forms : List Form
  tables : List Table
deriving DecidableEq

def emptyCell : Cell := { text := "", colspan := false, links := [] }

def cellText (cells : List Cell) (i : Nat) : String :=
  (cells.getD i emptyCell).text

/-- `$(row).text()`: concatenated text of the row's cells. -/
def rowText (r : Row) : String :=
  String.join (r.cells.map (fun c => c.text))

/-! ## Schedule records (source lines 520-527) -/

structure Schedule where
  course : String
  start_time : Int
  end_time : Int
  location : String
  list_id : Option String
  list_type : String
deriving DecidableEq

/-! ## Mina-Tider key set (source lines 424-451)

`$('td[colspan]')` iterates, in document order, every `td` that carries a
`colspan` attribute; a marker cell contributes keys only when the row above
it exists and has at least 3 cells.  Only the substring after the first
`Mina tider` occurrence is scanned for time ranges, and JS
`split('Mina tider')[1]` is falsy when that substring is empty. -/

def timeKey (dateStr : String) (tm : TimeGroups) : String :=
  dateStr ++ ":" ++ tm.h1 ++ ":" ++ tm.m1 ++ "-" ++ tm.h2 ++ ":" ++ tm.m2

def rowMarkerKeys (prevRow : Option Row) (cell : Cell) : List String :=
  if cell.colspan && includesSub cell.text "Mina tider" then
    match prevRow with
    | none => []
    | some pr =>
        if pr.cells.length ≥ 3 then
          let dateStr := jsTrim (cellText pr.cells 1)
          match (jsSplitOn cell.text "Mina tider").get? 1 with
          | none => []
          | some afterMinaTider =>
              if afterMinaTider == "" then []
              else (scanTimes afterMinaTider).map (timeKey dateStr)
        else []
  else []

/-- Pair every row with its preceding sibling row. -/
def rowsWithPrev (rows : List Row) : List (Row × Option Row) :=
  rows.zip (none :: rows.map some)

def buildMinaTiderKeys (page : Page) : List String :=
  page.tables.flatMap (fun t =>
    (rowsWithPrev t.rows).flatMap (fun rp =>
      rp.1.cells.flatMap (fun c => rowMarkerKeys rp.2 c)))

/-! ## Row processing (source lines 465-531) -/

/-- First `listid=` digit capture across the row's links
(`/listid=(\d+)/` on each href; the scan continues past hrefs that mention
`listid=` without digits, as the JS loop does). -/
def extractListId (href : String) : Option String :=
  (((jsSplitOn href "listid=").tail.map
      (fun p => p.data.takeWhile (fun c => c.isDigit))).find?
    (fun ds => !ds.isEmpty)).map String.mk

def rowListId (row : Row) : Option String :=
  (row.cells.flatMap (fun c => c.links)).findSome? extractListId

def processRow (keys : List String) (row : Row) : Option Schedule :=
  let cells := row.cells
  if cells.length < 4 then none
  else
    let listType := jsTrim (cellText cells 0)
    let dateStr := jsTrim (cellText cells 1)
    let timeStr := jsTrim (cellText cells 2)
    let coursesStr := jsTrim (cellText cells 3)
    let comments := if cells.length > 4 then jsTrim (cellText cells 4) else ""
    if !validDate dateStr then none
    else
      match firstTimeMatch timeStr with
      | none => none
      | some tm =>
        let courseCodes := scanBrackets coursesStr
        let courseName :=
          if !courseCodes.isEmpty then String.intercalate ", " courseCodes
          else listType
        let ymd := parseDateParts dateStr
        let startMs := jsDateMs ymd.1 (ymd.2.1 - 1) ymd.2.2
          (jsParseDigits tm.h1) (jsParseDigits tm.m1)
        let endMs := jsDateMs ymd.1 (ymd.2.1 - 1) ymd.2.2
          (jsParseDigits tm.h2) (jsParseDigits tm.m2)
        let key := timeKey dateStr tm
        if !keys.contains key then none
        else some { course := courseName, start_time := startMs, end_time := endMs,
                    location := comments, list_id := rowListId row,
                    list_type := listType }

/-- Source lines 454-532: a table participates when its first row's text
contains both `Datum` and `Tid`; its remaining rows are processed in order
and the surviving records of all tables are concatenated. -/
def collectSchedules (page : Page) (keys : List String) : List Schedule :=
  page.tables.flatMap (fun t =>
    match t.rows with
    | [] => []
    | hdr :: rest =>
        if includesSub (rowText hdr) "Datum" && includesSub (rowText hdr) "Tid" then
          rest.filterMap (processRow keys)
        else [])

/-! ## De-duplication (source lines 534-545) -/

def dedupKey (s : Schedule) : String :=
  (match s.list_id with | some i => i | none => "null") ++ "-" ++
    toString s.start_time ++ "-" ++ toString s.end_time

def dedupGo (seen : List String) : List Schedule → List Schedule
  | [] => []
  | s :: rest =>
      let key := dedupKey s
      if seen.contains key then dedupGo seen rest
      else s :: dedupGo (key :: seen) rest

def dedupJS (l : List Schedule) : List Schedule :=
  dedupGo [] l

/-- The whole extraction pass over one fetched page (source lines 421-546):
build the Mina-Tider key set, collect matching rows, de-duplicate. -/
def extractFromPage (page : Page) : List Schedule :=
  dedupJS (collectSchedules page (buildMinaTiderKeys page))

/-! ## HTTP model for the session acquirer

A response carries the status, the `Location` header, the raw `Set-Cookie`
header values, and the parsed body.  The network is an environment function
from method, URL and form body to a response; request headers do not
influence any verified property and are not modelled. -/

inductive Method where
  | get
  | post
deriving DecidableEq

structure HttpResponse where
  status : Nat
  location : Option String
  setCookies : List String
  page : Page
deriving DecidableEq

abbrev Net := Method → String → List (String × String) → HttpResponse

def extractCookies (r : HttpResponse) : List (String × String) :=
  extractCookiesRaw r.setCookies

def respOk (r : HttpResponse) : Bool :=
  200 ≤ r.status && r.status < 300

def isRedirect (r : HttpResponse) : Bool :=
  300 ≤ r.status && r.status < 400

/-- `new URL(u)` reduced to the origin `protocol//host` used by the source. -/
def urlOrigin (u : String) : String :=
  match jsSplitOn u "://" with
  | proto :: rest :: _ => proto ++ "://" ++ ((jsSplitOn rest "/").headD "")
  | _ => ""

/-- Source lines 188-197 and 344-353: make a `Location` header absolute. -/
def resolveLocation (currentUrl loc : String) : String :=
  if jsStartsWith loc "/" then urlOrigin currentUrl ++ loc
  else if jsStartsWith loc "http" then loc
  else urlOrigin currentUrl ++ "/" ++ loc

def MAX_REDIRECTS : Nat := 10

/-- The manual redirect loop of source lines 170-204, with the
`while (redirectCount < MAX_REDIRECTS)` condition turned into structural
fuel: the wrapper passes `MAX_REDIRECTS - count`, so fuel zero is exactly
`count ≥ MAX_REDIRECTS`.  Returns the response in hand at loop exit, the
jar, and the final `redirectCount`. -/
def redirectLoopGet (net : Net) :
    Nat → Nat → String → List (String × String) → HttpResponse →
      HttpResponse × List (String × String) × Nat
  | 0, count, _url, jar, resp => (resp, jar, count)
  | fuel + 1, count, url, jar, _resp =>
    let r := net .get url []
    let jar1 := mergeObj jar (extractCookies r)
    if isRedirect r then
      match r.location with
      | none => (r, jar1, count)
      | some loc =>
          redirectLoopGet net fuel (count + 1) (resolveLocation url loc) jar1 r
    else (r, jar1, count)

def redirectWhile (net : Net) (count : Nat) (url : String)
    (jar : List (String × String)) (resp : HttpResponse) :
    HttpResponse × List (String × String) × Nat :=
  redirectLoopGet net (MAX_REDIRECTS - count) count url jar resp

/-- The second manual redirect loop, source lines 329-366: the first request
is a POST carrying the assertion form data, later hops are plain GETs. -/
def redirectLoopPost (net : Net) (body : List (String × String)) :
    Nat → Nat → String → List (String × String) → HttpResponse →
      HttpResponse × List (String × String) × Nat
  | 0, count, _url, jar, resp => (resp, jar, count)
  | fuel + 1, count, url, jar, _resp =>
    let r :=
      if count == 0 then net .post url body else net .get url []
    let jar1 := mergeObj jar (extractCookies r)
    if isRedirect r then
      match r.location with
      | none => (r, jar1, count)
      | some loc =>
          redirectLoopPost net body fuel (count + 1) (resolveLocation url loc) jar1 r
    else (r, jar1, count)

def redirectWhilePost (net : Net) (body : List (String × String)) (count : Nat)
    (url : String) (jar : List (String × String)) (resp : HttpResponse) :
    HttpResponse × List (String × String) × Nat :=
  redirectLoopPost net body (MAX_REDIRECTS - count) count url jar resp

/-! ## Form helpers (source lines 220-227, 258-265, 306-313) -/

/-- Inputs collected when both name and value must be truthy
(forms 1 and 3). -/
def formPairsNV (f : Form) : List (String × String) :=
  f.inputs.filterMap (fun i =>
    match i.name, i.value with
    | some n, some v => if n != "" && v != "" then some (n, v) else none
    | _, _ => none)

/-- Inputs collected when only the name must be truthy and the value
defaults to the empty string (form 2, `value || ''`). -/
def formPairsN (f : Form) : List (String × String) :=
  f.inputs.filterMap (fun i =>
    match i.name with
    | some n => if n != "" then some (n, (i.value.getD "")) else none
    | none => none)

/-- `form.attr('action')` with JS truthiness: absent and empty collapse. -/
def firstFormAction (p : Page) : String :=
  ((p.forms.head?.bind (fun f => f.action)).getD "")

def firstForm (p : Page) : Form :=
  p.forms.headD { action := none, inputs := [] }

/-- The Stockholm University login link search, source lines 148-163: the
first anchor whose text matches breaks the loop even when it has no href. -/
def suLoginHref (p : Page) : Option String :=
  match p.anchors.find? (fun a =>
      includesSub a.text "Stockholm" &&
        (includesSub (jsToLower a.text) "universitet" || includesSub a.text "University")) with
  | none => none
  | some a => a.href

/-! ## The session acquirer state machine (source lines 129-373)

A straight-line translation of `handledningLogin` after the cache check:
every thrown `Error` becomes `Except.error` with the source's message. -/

def acquire (net : Net) (username password : String) : Except String String :=
  let r0 := net .get "https://handledning.dsv.su.se/" []
  let jar0 := mergeObj [] (extractCookies r0)
  let page0 := r0.page
  match suLoginHref page0 with
  | none => .error "Could not find Stockholm University login link"
  | some link0 =>
    if link0 == "" then .error "Could not find Stockholm University login link"
    else
      let suLoginLink :=
        if jsStartsWith link0 "/" then "https://handledning.dsv.su.se" ++ link0
        else link0
      let step2 := redirectWhile net 0 suLoginLink jar0 r0
      let r1 := step2.1
      let jar1 := step2.2.1
      let page1 := r1.page
      let actionUrl1 := firstFormAction page1
      if actionUrl1 == "" then
        .error ("Could not find form action URL. Page title: \"" ++ page1.title ++
          "\", Forms found: " ++ toString page1.forms.length)
      else
        let formData1 := objSet (objSetAll [] (formPairsNV (firstForm page1)))
          "_eventId_proceed" ""
        let r2 := net .post ("https://idp.it.su.se" ++ actionUrl1) formData1
        let jar2 := mergeObj jar1 (extractCookies r2)
        let page2 := r2.page
        let actionUrl2 := firstFormAction page2
        if actionUrl2 == "" then .error "No login form found"
        else
          let formData2 :=
            objDelete (objDelete
              (objSet (objSet (objSet (objSetAll [] (formPairsN (firstForm page2)))
                "j_username" username) "j_password" password) "_eventId_proceed" "")
              "_eventId_authn/SPNEGO") "_eventId_trySPNEGO"
          let r3 := net .post ("https://idp.it.su.se" ++ actionUrl2) formData2
          if !respOk r3 then
            .error ("Login failed with status " ++ toString r3.status)
          else
            let jar3 := mergeObj jar2 (extractCookies r3)
            let page3 := r3.page
            let actionUrl3 := firstFormAction page3
            if actionUrl3 == "" then .error "No SAML response form found"
            else
              let formData3 := objSetAll [] (formPairsNV (firstForm page3))
              let step5 := redirectWhilePost net formData3 0 actionUrl3 jar3 r3
              let jar4 := step5.2.1
              match objGet jar4 "JSESSIONID" with
              | none => .error "Failed to obtain JSESSIONID cookie"
              | some jsessionid =>
                  if jsessionid == "" then
                    .error "Failed to obtain JSESSIONID cookie"
                  else .ok jsessionid

/-! ## Session cache (source lines 86, 114-127, 375-382) -/

def CACHE_DURATION : Int := 3600

structure CacheEntry where
  cookie : String
  timestamp : Int
deriving DecidableEq

/-- The cache check of source lines 116-127: a hit needs a stored entry, a
truthy cookie, and strict freshness `now - cachedTime < CACHE_DURATION*1000`
(times in milliseconds). -/
def cacheLookup (cached : Option CacheEntry) (now : Int) : Option String :=
  match cached with
  | none => none
  | some c =>
      if c.cookie != "" then
        if now - c.timestamp < CACHE_DURATION * 1000 then some c.cookie else none
      else none

def cacheKeyFor (username : String) : String :=
  "cookie:" ++ username ++ ":handledning"

/-- The key-value operations a login run performs, in order.  The store
exposes only `get` and `put`; the source never deletes an entry. -/
inductive KvOp where
  | get (key : String)
  | put (key : String) (cookie : String) (timestamp : Int) (ttl : Int)
deriving DecidableEq

structure LoginEnv where
  kvEntry : Option CacheEntry
  now : Int
  net : Net

deriving instance DecidableEq for Except

structure LoginOutcome where
  result : Except String String
  kvOps : List KvOp
deriving DecidableEq

/-- `handledningLogin` (source lines 114-385): cache check, acquisition,
and the conditional store of lines 375-382 — both the lookup and the store
run only when `useCache` is true. -/
def handledningLoginRun (env : LoginEnv) (username password : String)
    (useCache : Bool) : LoginOutcome :=
  if useCache then
    match cacheLookup env.kvEntry env.now with
    | some cookie => { result := .ok cookie, kvOps := [.get (cacheKeyFor username)] }
    | none =>
      match acquire env.net username password with
      | .error e => { result := .error e, kvOps := [.get (cacheKeyFor username)] }
      | .ok tok =>
          { result := .ok tok,
            kvOps := [.get (cacheKeyFor username),
              .put (cacheKeyFor username) tok env.now CACHE_DURATION] }
  else
    match acquire env.net username password with
    | .error e => { result := .error e, kvOps := [] }
    | .ok tok => { result := .ok tok, kvOps := [] }

/-! ## `getPlannedSchedules` (source lines 387-546)

The schedule fetch consumes login results and fetch responses in call order
from explicit stubs; the run reports the outcome, the `useCache` flag of each
login call, and how many fetches were performed.  After an OK first response
whose body contains the login-page markers, the source re-logs-in once with
the cache bypassed and parses whatever the second OK response holds. -/

structure FetchResp where
  status : Nat
  page : Page
deriving DecidableEq

def fetchOk (r : FetchResp) : Bool :=
  200 ≤ r.status && r.status < 300

/-- Source line 404: the staleness markers. -/
def isLoginPage (p : Page) : Bool :=
  includesSub p.raw "Stockholm University" && includesSub p.raw "login"

def getPlannedSchedulesRun (logins : List (Except String String))
    (fetches : List FetchResp) (useCache : Bool) :
    Except String (List Schedule) × List Bool × Nat :=
  match logins with
  | [] => (.error "missing login stub", [], 0)
  | l1 :: restLogins =>
    match l1 with
    | .error e => (.error e, [useCache], 0)
    | .ok _tok =>
      match fetches with
      | [] => (.error "missing fetch stub", [useCache], 0)
      | f1 :: restFetches =>
        if !fetchOk f1 then
          (.error ("Failed to fetch schedules: " ++ toString f1.status), [useCache], 1)
        else if isLoginPage f1.page then
          match restLogins with
          | [] => (.error "missing login stub", [useCache], 1)
          | l2 :: _ =>
            match l2 with
            | .error e => (.error e, [useCache, false], 1)
            | .ok _tok2 =>
              match restFetches with
              | [] => (.error "missing fetch stub", [useCache, false], 1)
              | f2 :: _ =>
                if !fetchOk f2 then
                  (.error ("Failed to fetch schedules after re-login: " ++
                    toString f2.status), [useCache, false], 2)
                else (.ok (extractFromPage f2.page), [useCache, false], 2)
        else (.ok (extractFromPage f1.page), [useCache], 1)

/-! ## Concrete fixtures

Synthetic environments used to settle the claims on explicit inputs: a happy
login flow whose identity-provider hop chain has 9 redirects, an environment
whose hop chain never stops redirecting, and schedule pages. -/

def emptyPage : Page :=
  { raw := "", title := "", anchors := [], forms := [], tables := [] }

def redirectResp (loc : String) : HttpResponse :=
  { status := 302, location := some loc, setCookies := [], page := emptyPage }

def okResp (p : Page) : HttpResponse :=
  { status := 200, location := none, setCookies := [], page := p }

def notFoundResp : HttpResponse :=
  { status := 404, location := none, setCookies := [], page := emptyPage }

def netOf (table : List (String × HttpResponse)) : Net :=
  fun _m u _b =>
    ((table.find? (fun p => p.1 == u)).map (fun p => p.2)).getD notFoundResp

def landingPage : Page :=
  { emptyPage with anchors := [{ text := "Stockholm University", href := some "/su" }] }

def formPage (action : String) : Page :=
  { emptyPage with forms := [{ action := some action, inputs := [] }] }

def tokenResp : HttpResponse :=
  { status := 200, location := none,
    setCookies := ["JSESSIONID=ABC123; Path=/"], page := emptyPage }

/-- Happy flow: the pre-auth hop chain is 9 redirects whose 10th response is
the non-redirect form page. -/
def happyNet : Net := netOf
  [("https://handledning.dsv.su.se/", okResp landingPage),
   ("https://handledning.dsv.su.se/su", redirectResp "/r1"),
   ("https://handledning.dsv.su.se/r1", redirectResp "/r2"),
   ("https://handledning.dsv.su.se/r2", redirectResp "/r3"),
   ("https://handledning.dsv.su.se/r3", redirectResp "/r4"),
   ("https://handledning.dsv.su.se/r4", redirectResp "/r5"),
   ("https://handledning.dsv.su.se/r5", redirectResp "/r6"),
   ("https://handledning.dsv.su.se/r6", redirectResp "/r7"),
   ("https://handledning.dsv.su.se/r7", redirectResp "/r8"),
   ("https://handledning.dsv.su.se/r8", redirectResp "/r9"),
   ("https://handledning.dsv.su.se/r9", okResp (formPage "/profile1")),
   ("https://idp.it.su.se/profile1", okResp (formPage "/login2")),
   ("https://idp.it.su.se/login2", okResp (formPage "https://handledning.dsv.su.se/saml")),
   ("https://handledning.dsv.su.se/saml", tokenResp)]

/-- A hop chain that redirects forever (self-loop): more than 10 chained
redirects are offered. -/
def loopNet : Net := netOf
  [("https://handledning.dsv.su.se/", okResp landingPage),
   ("https://handledning.dsv.su.se/su", redirectResp "/loop"),
   ("https://handledning.dsv.su.se/loop", redirectResp "/loop")]

def happyEnv : LoginEnv := { kvEntry := none, now := 0, net := happyNet }

def loopEnv : LoginEnv := { kvEntry := none, now := 0, net := loopNet }

/-- An expired cache entry: acquired at time 0, consulted exactly at the
TTL boundary. -/
def expiredEnv : LoginEnv :=
  { kvEntry := some { cookie := "OLDTOKEN", timestamp := 0 },
    now := 3600 * 1000, net := happyNet }

/-- A response body that is the identity-provider login page. -/
def stalePage : Page := { emptyPage with raw := "Stockholm University login" }

def staleFetch : FetchResp := { status := 200, page := stalePage }

def plainFetch : FetchResp := { status := 200, page := emptyPage }

/-! Schedule-table fixtures for the Mina-Tider filter: two rows share the
time range 10:00-11:00 on different days; only 2024-05-01 is in the key
set. -/

def mkCell (t : String) : Cell := { text := t, colspan := false, links := [] }

def fixtureKeys : List String := ["2024-05-01:10:00-11:00"]

def rowMay1 : Row :=
  { cells := [mkCell "Handledning", mkCell "2024-05-01", mkCell "10:00 - 11:00",
              { text := "[IS1500]", colspan := false,
                links := ["/servlet/teacher/GetListServlet?listid=42"] },
              mkCell "Room 21"] }

def rowMay2 : Row :=
  { cells := [mkCell "Handledning", mkCell "2024-05-02", mkCell "10:00 - 11:00",
              mkCell "[IS1500]", mkCell "Room 21"] }

/-- A data row with only 3 cells whose text still parses to a date and a
matching time range. -/
def rowShort : Row :=
  { cells := [mkCell "2024-05-01", mkCell "10:00 - 11:00", mkCell "[IS1500]"] }

/-- A data row with exactly 4 cells. -/
def rowFour : Row :=
  { cells := [mkCell "Handledning", mkCell "2024-05-01", mkCell "10:00 - 11:00",
              mkCell "[IS1500]"] }

/-! ## Claims -/

/-- The compound key a schedule row offers to the Mina-Tider set. -/
def rowKeyOf (row : Row) (tm : TimeGroups) : String :=
  timeKey (jsTrim (cellText row.cells 1)) tm

/-- C3: a parsed schedule-table data row with a valid date and time range
produces a record exactly when its compound `date:start-end` key is in the
Mina-Tider key set; a row whose time range matches a key but whose date
differs contributes nothing. -/
theorem c3_row_included_iff_key_in_minatider
    (keys : List String) (row : Row) (tm : TimeGroups)
    (h4 : 4 ≤ row.cells.length)
    (hd : validDate (jsTrim (cellText row.cells 1)) = true)
    (ht : firstTimeMatch (jsTrim (cellText row.cells 2)) = some tm) :
    (∃ s, processRow keys row = some s) ↔ keys.contains (rowKeyOf row tm) = true := by
  have hlt : ¬ row.cells.length < 4 := by omega
  by_cases hk : keys.contains (rowKeyOf row tm) = true
  · simp [processRow, hlt, hd, ht, hk, rowKeyOf]
  · have hk2 : keys.contains (rowKeyOf row tm) = false := by
      cases hcc : keys.contains (rowKeyOf row tm) with
      | true => exact absurd hcc hk
      | false => rfl
    simp [processRow, hlt, hd, ht, hk2, rowKeyOf]

/-- C3 witness: with the key set containing only `2024-05-01:10:00-11:00`,
the 2024-05-01 row is included and the 2024-05-02 row with the identical
time range is excluded. -/
theorem c3_witness :
    (∃ s, processRow fixtureKeys rowMay1 = some s)
    ∧ ¬ (∃ s, processRow fixtureKeys rowMay2 = some s) := by
  constructor
  · exact (c3_row_included_iff_key_in_minatider fixtureKeys rowMay1
      ⟨"10", "00", "11", "00"⟩ (by decide) (by decide) (by decide)).mpr (by decide)
  · intro h
    exact absurd ((c3_row_included_iff_key_in_minatider fixtureKeys rowMay2
      ⟨"10", "00", "11", "00"⟩ (by decide) (by decide) (by decide)).mp h) (by decide)

/-- C5: the cache lookup returns the stored token exactly when
`now - acquired_at < 3600` seconds (strictly); otherwise it reports absent,
and on an expired entry the run proceeds to a full acquisition whose only
key-value operations are the initial read and, on success, the overwrite —
the expired entry is never deleted. -/
theorem c5_cache_ttl (e : CacheEntry) (env : LoginEnv) (u p : String)
    (hc : e.cookie ≠ "") (henv : env.kvEntry = some e) :
    (cacheLookup (some e) env.now = some e.cookie ↔
      env.now - e.timestamp < CACHE_DURATION * 1000)
    ∧ (¬ env.now - e.timestamp < CACHE_DURATION * 1000 →
        (handledningLoginRun env u p true).result = acquire env.net u p
        ∧ (handledningLoginRun env u p true).kvOps =
            KvOp.get (cacheKeyFor u) ::
              (match acquire env.net u p with
               | .ok t => [KvOp.put (cacheKeyFor u) t env.now CACHE_DURATION]
               | .error _ => [])) := by
  constructor
  · by_cases hf : env.now - e.timestamp < CACHE_DURATION * 1000
    · simp [cacheLookup, hc, hf]
    · simp [cacheLookup, hc, hf]
  · intro hexp
    have hnone : cacheLookup env.kvEntry env.now = none := by
      rw [henv]; simp [cacheLookup, hc, hexp]
    cases hacq : acquire env.net u p with
    | ok t => simp [handledningLoginRun, hnone, hacq]
    | error er => simp [handledningLoginRun, hnone, hacq]

/-- C5 witness: an entry acquired at 0 and consulted exactly 3600 seconds
later is not returned, the acquirer runs, and the store is overwritten (no
purge operation exists). -/
theorem c5_witness :
    (cacheLookup (some { cookie := "OLDTOKEN", timestamp := 0 }) expiredEnv.now =
        some "OLDTOKEN" ↔ expiredEnv.now - (0 : Int) < CACHE_DURATION * 1000)
    ∧ (handledningLoginRun expiredEnv "u" "p" true).result = acquire expiredEnv.net "u" "p"
    ∧ (handledningLoginRun expiredEnv "u" "p" true).kvOps =
        KvOp.get (cacheKeyFor "u") ::
          (match acquire expiredEnv.net "u" "p" with
           | .ok t => [KvOp.put (cacheKeyFor "u") t expiredEnv.now CACHE_DURATION]
           | .error _ => []) := by
  have h := c5_cache_ttl { cookie := "OLDTOKEN", timestamp := 0 } expiredEnv "u" "p"
    (by decide) rfl
  exact ⟨h.1, (h.2 (by decide)).1, (h.2 (by decide)).2⟩

/-- C9: a data row with fewer than 4 cells is skipped before any parsing,
and a row with exactly 4 cells yields a record whose location is empty. -/
theorem c9_cell_count (keys : List String) :
    (∀ row : Row, row.cells.length < 4 → processRow keys row = none)
    ∧ (∀ (row : Row) (s : Schedule), row.cells.length = 4 →
        processRow keys row = some s → s.location = "") := by
  constructor
  · intro row h
    unfold processRow
    rw [if_pos h]
  · intro row s h4 hp
    have hlt : ¬ row.cells.length < 4 := by omega
    have hgt : ¬ row.cells.length > 4 := by omega
    simp only [processRow, hlt, if_false, hgt, ite_false] at hp
    split at hp
    · exact absurd hp (by simp)
    · split at hp
      · exact absurd hp (by simp)
      · split at hp
        · exact absurd hp (by simp)
        · rw [← Option.some.inj hp]

/-- C9 witness: a 3-cell row whose text parses to a matching date and time
is still skipped, and the 4-cell row's record has an empty location. -/
theorem c9_witness :
    processRow fixtureKeys rowShort = none
    ∧ (processRow fixtureKeys rowFour).map Schedule.location = some "" := by
  constructor
  · exact (c9_cell_count fixtureKeys).1 rowShort (by decide)
  · have hp : processRow fixtureKeys rowFour =
        some { course := "IS1500", start_time := jsDateMs 2024 4 1 10 0,
               end_time := jsDateMs 2024 4 1 11 0, location := "",
               list_id := none, list_type := "Handledning" } := by decide
    have hloc := (c9_cell_count fixtureKeys).2 rowFour _ (by decide) hp
    rw [hp]
    exact congrArg some hloc

/-- C10: only `td` cells carrying a `colspan` attribute are scanned for the
Mina-tider marker, and a marker cell contributes keys only when an
immediately preceding row exists and has at least 3 cells. -/
theorem c10_marker_guards :
    (∀ (prev : Option Row) (cell : Cell), cell.colspan = false →
        rowMarkerKeys prev cell = [])
    ∧ (∀ cell : Cell, rowMarkerKeys none cell = [])
    ∧ (∀ (pr : Row) (cell : Cell), pr.cells.length < 3 →
        rowMarkerKeys (some pr) cell = []) := by
  refine ⟨?_, ?_, ?_⟩
  · intro prev cell h
    simp [rowMarkerKeys, h]
  · intro cell
    unfold rowMarkerKeys
    split <;> rfl
  · intro pr cell h
    have h3 : ¬ pr.cells.length ≥ 3 := by omega
    unfold rowMarkerKeys
    split
    · simp [h3]
    · rfl

/-! ### De-duplication lemmas (claims C6 and C7) -/

/-- De-duplication as the design document words it: keep a record when its
identity key was not seen before; the first occurrence wins and encounter
order is preserved. -/
def dedupSpec (l : List Schedule) : List Schedule :=
  match l with
  | [] => []
  | s :: rest => s :: dedupSpec (rest.filter (fun t => dedupKey t != dedupKey s))
termination_by l.length
decreasing_by
  simp only [List.length_cons]
  exact Nat.lt_succ_of_le (List.length_filter_le _ _)

theorem not_contains_cons (k a : String) (seen : List String) :
    (!((k :: seen).contains a)) = ((a != k) && !(seen.contains a)) := by
  rw [List.contains_cons, Bool.not_or]
  rfl

theorem dedupGo_eq (l : List Schedule) :
    ∀ seen : List String,
      dedupGo seen l = dedupSpec (l.filter (fun t => !(seen.contains (dedupKey t)))) := by
  induction l with
  | nil => intro seen; simp [dedupGo, dedupSpec]
  | cons s rest ih =>
      intro seen
      cases hcon : seen.contains (dedupKey s) with
      | true =>
          have hmem : dedupKey s ∈ seen := by simpa using hcon
          simp [dedupGo, hcon, hmem, ih]
      | false =>
          have hmem : ¬ dedupKey s ∈ seen := by simpa using hcon
          simp [dedupGo, hcon, hmem, ih, dedupSpec]
          apply congrArg dedupSpec
          apply List.filter_congr
          intro t _
          by_cases hd : dedupKey t = dedupKey s <;> simp [hd, bne]

theorem dedupJS_eq_dedupSpec (l : List Schedule) : dedupJS l = dedupSpec l := by
  rw [dedupJS, dedupGo_eq]
  congr 1
  simp

theorem dedupSpec_sublist (l : List Schedule) : (dedupSpec l).Sublist l := by
  have H : ∀ (n : Nat) (l : List Schedule), l.length ≤ n → (dedupSpec l).Sublist l := by
    intro n
    induction n with
    | zero =>
        intro l hl
        have hnil : l = [] := List.eq_nil_of_length_eq_zero (Nat.le_zero.mp hl)
        subst hnil
        simp [dedupSpec]
    | succ m ih =>
        intro l hl
        match l with
        | [] => simp [dedupSpec]
        | s :: rest =>
            simp only [dedupSpec]
            refine List.Sublist.cons₂ s ?_
            exact (ih _ (le_trans (List.length_filter_le _ _)
              (Nat.le_of_succ_le_succ hl))).trans (List.filter_sublist _)
  exact H l.length l le_rfl

theorem dedupSpec_keys_pairwise (l : List Schedule) :
    (dedupSpec l).Pairwise (fun a b => dedupKey a ≠ dedupKey b) := by
  have H : ∀ (n : Nat) (l : List Schedule), l.length ≤ n →
      (dedupSpec l).Pairwise (fun a b => dedupKey a ≠ dedupKey b) := by
    intro n
    induction n with
    | zero =>
        intro l hl
        have hnil : l = [] := List.eq_nil_of_length_eq_zero (Nat.le_zero.mp hl)
        subst hnil
        simp [dedupSpec]
    | succ m ih =>
        intro l hl
        match l with
        | [] => simp [dedupSpec]
        | s :: rest =>
            simp only [dedupSpec]
            refine List.Pairwise.cons ?_ ?_
            · intro b hb
              have hmem : b ∈ rest.filter (fun t => dedupKey t != dedupKey s) :=
                (dedupSpec_sublist _).subset hb
              have := List.of_mem_filter hmem
              intro hkey
              rw [hkey] at this
              simp at this
            · exact ih _ (le_trans (List.length_filter_le _ _)
                (Nat.le_of_succ_le_succ hl))
  exact H l.length l le_rfl

theorem dedupSpec_eq_self (l : List Schedule)
    (h : l.Pairwise (fun a b => dedupKey a ≠ dedupKey b)) : dedupSpec l = l := by
  have H : ∀ (n : Nat) (l : List Schedule), l.length ≤ n →
      l.Pairwise (fun a b => dedupKey a ≠ dedupKey b) → dedupSpec l = l := by
    intro n
    induction n with
    | zero =>
        intro l hl _
        have hnil : l = [] := List.eq_nil_of_length_eq_zero (Nat.le_zero.mp hl)
        subst hnil
        simp [dedupSpec]
    | succ m ih =>
        intro l hl hp
        match l, hp with
        | [], _ => simp [dedupSpec]
        | s :: rest, hp =>
            have hfilter : rest.filter (fun t => dedupKey t != dedupKey s) = rest := by
              apply List.filter_eq_self.mpr
              intro t ht
              exact bne_iff_ne.mpr
                (fun he => (List.rel_of_pairwise_cons hp ht) he.symm)
            have hrest : rest.length ≤ m := by
              simp only [List.length_cons] at hl
              omega
            simp only [dedupSpec, hfilter]
            rw [ih rest hrest ((List.pairwise_cons.mp hp).2)]
  exact H l.length l le_rfl h

/-! ### Cookie-jar monotonicity lemmas (claim C8) -/

theorem fst_objSet_update (k v : String) (p : String × String) :
    (if p.1 == k then (k, v) else p).1 = p.1 := by
  by_cases h : p.1 == k
  · rw [if_pos h]
    exact (eq_of_beq h).symm
  · rw [if_neg h]

theorem mem_jarNames_objSet {o : List (String × String)} {n : String} (k v : String)
    (h : n ∈ jarNames o) : n ∈ jarNames (objSet o k v) := by
  unfold objSet
  split
  · unfold jarNames at *
    rw [List.map_map]
    have hcomp : (Prod.fst ∘ fun p : String × String => if p.1 == k then (k, v) else p) =
        Prod.fst := by
      funext p
      exact fst_objSet_update k v p
    rw [hcomp]
    exact h
  · unfold jarNames at *
    rw [List.map_append]
    exact List.mem_append_left _ h

theorem mem_jarNames_mergeObj {n : String} (o delta : List (String × String))
    (h : n ∈ jarNames o) : n ∈ jarNames (mergeObj o delta) := by
  induction delta generalizing o with
  | nil => exact h
  | cons d ds ih =>
      simp only [mergeObj, List.foldl_cons] at *
      exact ih _ (mem_jarNames_objSet d.1 d.2 h)

theorem mem_jarNames_redirectLoopGet (net : Net) {n : String} :
    ∀ (fuel count : Nat) (url : String) (jar : List (String × String))
      (resp : HttpResponse), n ∈ jarNames jar →
        n ∈ jarNames (redirectLoopGet net fuel count url jar resp).2.1 := by
  intro fuel
  induction fuel with
  | zero => intro count url jar resp h; exact h
  | succ f ih =>
      intro count url jar resp h
      simp only [redirectLoopGet]
      split
      · split
        · exact mem_jarNames_mergeObj _ _ h
        · exact ih _ _ _ _ (mem_jarNames_mergeObj _ _ h)
      · exact mem_jarNames_mergeObj _ _ h

theorem mem_jarNames_redirectLoopPost (net : Net) (body : List (String × String))
    {n : String} :
    ∀ (fuel count : Nat) (url : String) (jar : List (String × String))
      (resp : HttpResponse), n ∈ jarNames jar →
        n ∈ jarNames (redirectLoopPost net body fuel count url jar resp).2.1 := by
  intro fuel
  induction fuel with
  | zero => intro count url jar resp h; exact h
  | succ f ih =>
      intro count url jar resp h
      simp only [redirectLoopPost]
      cases hc : count == 0
      all_goals
        simp only [hc, Bool.false_eq_true, if_false, if_true]
        split
        · split
          · exact mem_jarNames_mergeObj _ _ h
          · exact ih _ _ _ _ (mem_jarNames_mergeObj _ _ h)
        · exact mem_jarNames_mergeObj _ _ h

/-- Two schedule records with the same identity triple but different
display fields. -/
def schedA : Schedule :=
  { course := "IS1500", start_time := 100, end_time := 200, location := "X",
    list_id := some "7", list_type := "Handledning" }

def schedB : Schedule :=
  { course := "ID1018", start_time := 100, end_time := 200, location := "Y",
    list_id := some "7", list_type := "Redovisning" }

/-- C6: the extractor's de-duplication equals keep-first-by-identity-key
(first-seen order preserved), its output is a sublist of its input, and
records with equal `(list_id, start_time, end_time)` have equal
de-duplication keys, so only the first of them survives. -/
theorem c6_dedup_first_seen (l : List Schedule) :
    dedupJS l = dedupSpec l
    ∧ (dedupJS l).Sublist l
    ∧ (∀ a b : Schedule, a.list_id = b.list_id → a.start_time = b.start_time →
        a.end_time = b.end_time → dedupKey a = dedupKey b) := by
  refine ⟨dedupJS_eq_dedupSpec l, ?_, ?_⟩
  · rw [dedupJS_eq_dedupSpec]
    exact dedupSpec_sublist l
  · intro a b h1 h2 h3
    simp [dedupKey, h1, h2, h3]

/-- C6 witness: two records sharing `(list_id, start, end)` but differing in
course and location have equal keys and collapse to the first. -/
theorem c6_witness :
    dedupKey schedA = dedupKey schedB
    ∧ dedupJS [schedA, schedB] = dedupSpec [schedA, schedB]
    ∧ dedupJS [schedA, schedB] = [schedA] := by
  have t := c6_dedup_first_seen [schedA, schedB]
  exact ⟨t.2.2 schedA schedB rfl rfl rfl, t.1, by decide⟩

/-- C7: the extraction pass is deterministic over its input (it is a pure
function of the page), and the de-duplication step is idempotent, so a
second run over already-extracted output changes nothing. -/
theorem c7_deterministic_idempotent (p : Page) (l : List Schedule) :
    extractFromPage p = extractFromPage p
    ∧ dedupJS (dedupJS l) = dedupJS l := by
  refine ⟨rfl, ?_⟩
  rw [dedupJS_eq_dedupSpec, dedupJS_eq_dedupSpec]
  exact dedupSpec_eq_self _ (dedupSpec_keys_pairwise l)

/-- C8: the cookie jar only ever grows: a merge of freshly extracted cookies
preserves every existing name, and both manual redirect loops return a jar
containing every name the input jar had. -/
theorem c8_jar_names_monotone :
    (∀ (o delta : List (String × String)) (n : String),
        n ∈ jarNames o → n ∈ jarNames (mergeObj o delta))
    ∧ (∀ (net : Net) (count : Nat) (url : String) (jar : List (String × String))
        (resp : HttpResponse) (n : String), n ∈ jarNames jar →
          n ∈ jarNames (redirectWhile net count url jar resp).2.1)
    ∧ (∀ (net : Net) (body : List (String × String)) (count : Nat) (url : String)
        (jar : List (String × String)) (resp : HttpResponse) (n : String),
        n ∈ jarNames jar →
          n ∈ jarNames (redirectWhilePost net body count url jar resp).2.1) := by
  refine ⟨?_, ?_, ?_⟩
  · intro o delta n h
    exact mem_jarNames_mergeObj o delta h
  · intro net count url jar resp n h
    exact mem_jarNames_redirectLoopGet net _ _ _ _ _ h
  · intro net body count url jar resp n h
    exact mem_jarNames_redirectLoopPost net body _ _ _ _ _ h

/-- C8 witness: a jar holding `JSESSIONID` still holds it after a merge that
overwrites it and after a full 9-hop redirect walk. -/
theorem c8_witness :
    "JSESSIONID" ∈ jarNames (mergeObj [("JSESSIONID", "old")] [("other", "1")])
    ∧ "JSESSIONID" ∈ jarNames
        (redirectWhile happyNet 0 "https://handledning.dsv.su.se/su"
          [("JSESSIONID", "old")] notFoundResp).2.1 := by
  have t := c8_jar_names_monotone
  exact ⟨t.1 _ _ _ (by decide), t.2.1 happyNet 0 _ _ _ _ (by decide)⟩

/-- C1 counterexample: with a hop chain that redirects more than 10 times,
the redirect phase does not fail with a redirect-loop error — the loop exits
normally after 10 hops still holding a redirect response, and the acquisition
then fails later, at the pre-auth form parse, with the
form-action-not-found error. -/
theorem c1_counterexample :
    (redirectWhile loopNet 0 "https://handledning.dsv.su.se/su" [] notFoundResp).2.2 = 10
    ∧ isRedirect
        (redirectWhile loopNet 0 "https://handledning.dsv.su.se/su" [] notFoundResp).1 = true
    ∧ (handledningLoginRun loopEnv "u" "p" false).result =
        .error "Could not find form action URL. Page title: \"\", Forms found: 0" := by
  refine ⟨by decide, by decide, by decide⟩

/-- C1 amended: both manual redirect-following phases stop after at most 10
followed hops.  A chain of 9 redirects whose 10th response is non-redirect
completes the phase (and the whole acquisition) successfully; an exhausted
budget raises no dedicated error — the loop returns the last redirect
response with the hop counter at 10. -/
theorem c1_amended_budget :
    (redirectWhile happyNet 0 "https://handledning.dsv.su.se/su" [] notFoundResp).1 =
        okResp (formPage "/profile1")
    ∧ (redirectWhile happyNet 0 "https://handledning.dsv.su.se/su" [] notFoundResp).2.2 = 9
    ∧ (handledningLoginRun happyEnv "u" "p" false).result = .ok "ABC123"
    ∧ (redirectWhile loopNet 0 "https://handledning.dsv.su.se/loop" [] notFoundResp).2.2 = 10
    ∧ isRedirect
        (redirectWhile loopNet 0 "https://handledning.dsv.su.se/loop" [] notFoundResp).1 = true
    ∧ (redirectWhilePost loopNet [] 0 "https://handledning.dsv.su.se/loop" [] notFoundResp).2.2 = 10
    ∧ isRedirect
        (redirectWhilePost loopNet [] 0 "https://handledning.dsv.su.se/loop" [] notFoundResp).1 = true := by
  refine ⟨by decide, by decide, by decide, by decide, by decide, by decide, by decide⟩

/-- C2 counterexample: when the retried fetch after the forced fresh
re-login is again the identity-provider login page (HTTP 200), the call does
not terminate with a fatal error — it parses the login page as a schedule
page and returns the empty record list. -/
theorem c2_counterexample :
    getPlannedSchedulesRun [.ok "t1", .ok "t2"] [staleFetch, staleFetch] true =
        (.ok [], [true, false], 2)
    ∧ isLoginPage staleFetch.page = true := by
  refine ⟨by decide, by decide⟩

/-- C2 amended: a stale first response triggers exactly one forced fresh
re-login (second login call with the cache bypassed) and exactly one retry
fetch; whatever OK body the retry returns — stale or not — is parsed as the
schedule page, with no further login or fetch. -/
theorem c2_amended (tok tok2 : String) (restL : List (Except String String))
    (restF : List FetchResp) (f1 f2 : FetchResp) (useCache : Bool)
    (h1 : fetchOk f1 = true) (hs : isLoginPage f1.page = true)
    (h2 : fetchOk f2 = true) :
    getPlannedSchedulesRun (.ok tok :: .ok tok2 :: restL) (f1 :: f2 :: restF) useCache =
      (.ok (extractFromPage f2.page), [useCache, false], 2) := by
  simp [getPlannedSchedulesRun, h1, hs, h2]

/-- C2 witness: one stale response followed by an OK plain page consumes
exactly two logins (the second forced) and two fetches. -/
theorem c2_witness :
    getPlannedSchedulesRun [.ok "x", .ok "y"] [staleFetch, plainFetch] false =
      (.ok (extractFromPage plainFetch.page), [false, false], 2) :=
  c2_amended "x" "y" [] [] staleFetch plainFetch false (by decide) (by decide) (by decide)

/-- C4 counterexample: in force-fresh mode (`useCache = false`) a successful
acquisition performs no key-value operation at all — in particular the store
is skipped, not executed. -/
theorem c4_counterexample :
    (handledningLoginRun happyEnv "u" "p" false).result = .ok "ABC123"
    ∧ (handledningLoginRun happyEnv "u" "p" false).kvOps = [] := by
  refine ⟨by decide, by decide⟩

/-- C4 amended: in force-fresh mode the Session Acquirer always runs (the
outcome is exactly the acquisition outcome) and the cache is neither read
nor written; the store executes only when `useCache` is true, after a cache
miss and a successful acquisition. -/
theorem c4_amended (env : LoginEnv) (u p tok : String) :
    (handledningLoginRun env u p false).kvOps = []
    ∧ (handledningLoginRun env u p false).result = acquire env.net u p
    ∧ (cacheLookup env.kvEntry env.now = none → acquire env.net u p = .ok tok →
        (handledningLoginRun env u p true).kvOps =
          [KvOp.get (cacheKeyFor u), KvOp.put (cacheKeyFor u) tok env.now CACHE_DURATION]) := by
  refine ⟨?_, ?_, ?_⟩
  · cases hacq : acquire env.net u p <;> simp [handledningLoginRun, hacq]
  · cases hacq : acquire env.net u p <;> simp [handledningLoginRun, hacq]
  · intro hl ha
    simp [handledningLoginRun, hl, ha]

/-- C4 witness: the amended statement at the happy environment, whose
acquisition succeeds with token `ABC123`. -/
theorem c4_witness :
    (handledningLoginRun happyEnv "u" "p" false).kvOps = []
    ∧ (handledningLoginRun happyEnv "u" "p" false).result = acquire happyEnv.net "u" "p"
    ∧ (handledningLoginRun happyEnv "u" "p" true).kvOps =
        [KvOp.get (cacheKeyFor "u"),
         KvOp.put (cacheKeyFor "u") "ABC123" happyEnv.now CACHE_DURATION] := by
  have t := c4_amended happyEnv "u" "p" "ABC123"
  exact ⟨t.1, t.2.1, t.2.2 rfl (by decide)⟩

/-- C10 witness: a marker cell without colspan, a marker cell in a first
row, and a marker cell under a 2-cell row all contribute no keys, at a cell
whose text otherwise carries a valid time range. -/
theorem c10_witness :
    rowMarkerKeys (some rowMay1)
        { text := "Mina tider: 10:00 - 11:00", colspan := false, links := [] } = []
    ∧ rowMarkerKeys none
        { text := "Mina tider: 10:00 - 11:00", colspan := true, links := [] } = []
    ∧ rowMarkerKeys (some { cells := [mkCell "x", mkCell "2024-05-01"] })
        { text := "Mina tider: 10:00 - 11:00", colspan := true, links := [] } = [] := by
  refine ⟨?_, ?_, ?_⟩
  · exact c10_marker_guards.1 (some rowMay1) _ rfl
  · exact c10_marker_guards.2.1 _
  · exact c10_marker_guards.2.2 { cells := [mkCell "x", mkCell "2024-05-01"] } _ (by decide)

end DsvTutor
